import Mathlib

/-! Verification development for the email-agent repository.

We shallowly embed the relevant code of `summarizer.py`, `main.py` and
`state_store.py` as executable Lean definitions and prove the frozen claims
about them.  Text is modelled as `List Char`; Python machine behaviour that
matters (word-boundary regex matching of the `\bLITERAL\b` patterns, greedy
date-token matching, dict insertion order) is reproduced faithfully for the
ASCII inputs the program manipulates.
-/

namespace EmailAgent

/-- Python `\w` word character, approximated for the ASCII patterns used by
the source (`IGNORE_SUBJECT_PATTERNS` etc. are ASCII literals): alphanumeric,
underscore, or any non-ASCII codepoint. -/
def isWordChar (c : Char) : Bool :=
  c.isAlphanum || c == '_' || decide (127 < c.toNat)

/-- A regex word boundary `\b` next to a word character: the neighbouring
character (if any) must not be a word character. -/
def boundB : Option Char → Bool
  | none => true
  | some c => !(isWordChar c)

/-- If `needle` is a prefix of `hay`, return the rest of `hay`. -/
def preRest : List Char → List Char → Option (List Char)
  | [], h => some h
  | _ :: _, [] => none
  | a :: as, b :: bs => if a = b then preRest as bs else none

/-- Test whether `needle` occurs starting exactly here, with a `\b` boundary on each side
(`prev` is the character just before this position). -/
def matchHere (needle hay : List Char) (prev : Option Char) : Bool :=
  boundB prev &&
    (match preRest needle hay with
     | some rest => boundB rest.head?
     | none => false)

/-- Scan of `re.search(r"\bLIT\b", text)` for a literal `LIT`: leftmost
occurrence with word boundaries. -/
def matchWordAux (needle : List Char) (prev : Option Char) : List Char → Bool
  | [] => matchHere needle [] prev
  | c :: t => matchHere needle (c :: t) prev || matchWordAux needle (some c) t

/-- Lowercase a char list (Python `str.lower()` on ASCII). -/
def toLowerL (s : List Char) : List Char := s.map Char.toLower

/-- Embedding of `_matches_any(text, patterns)` from summarizer.py, for the patterns of the
source which all have the shape `\bLITERAL\b` and are matched with
`re.IGNORECASE`: some pattern literal occurs in `text` delimited by word
boundaries, case-insensitively. -/
def matchesAny (patterns : List String) (text : List Char) : Bool :=
  patterns.any fun p => matchWordAux (toLowerL p.data) none (toLowerL text)

/-- Python `str.strip()` (whitespace at both ends). -/
def stripList (s : List Char) : List Char :=
  ((s.dropWhile Char.isWhitespace).reverse.dropWhile Char.isWhitespace).reverse

/-- Embedding of `_norm(s)` from summarizer.py: `s.strip().lower()`. -/
def normList (s : List Char) : List Char := toLowerL (stripList s)

/-- Python substring test `needle in hay`. -/
def hasSubAux (needle : List Char) : List Char → Bool
  | [] => (preRest needle []).isSome
  | c :: t => (preRest needle (c :: t)).isSome || hasSubAux needle t

/-- Embedding of `_contains_any(text, keywords)` from summarizer.py: some keyword is a
substring of `_norm(text)`. -/
def containsAny (keywords : List String) (text : List Char) : Bool :=
  keywords.any fun kw => hasSubAux kw.data (normList text)

/-- Collapse every whitespace run to a single space:
`re.sub(r"\s+", " ", s)`. -/
def collapseWsAux (prevWs : Bool) : List Char → List Char
  | [] => []
  | c :: t =>
    if c.isWhitespace then
      if prevWs then collapseWsAux true t else ' ' :: collapseWsAux true t
    else c :: collapseWsAux false t

def collapseWs (s : List Char) : List Char := collapseWsAux false s

/-- Python `str.strip` on a `String`. -/
def stripS (s : String) : String := String.mk (stripList s.data)

/-- Embedding of `_get(email, *keys, default)` from summarizer.py: first value that is a
non-empty string after stripping, stripped; else the default.  Absent or
non-string values are modelled as `none`. -/
def pyGet : List (Option String) → String → String
  | [], d => d
  | some s :: rest, d => if stripS s = "" then pyGet rest d else stripS s
  | none :: rest, d => pyGet rest d

/-! Date extraction (`DATE_REGEXES`, `_extract_first_date`, `_days_until`) -/

/-- A Python `datetime.date` value (only Y/M/D matter to the source). -/
structure PyDate where
  year : Nat
  month : Nat
  day : Nat
deriving DecidableEq, Repr

/-- Read exactly `n` digits, returning their value and the rest. -/
def takeDigits : Nat → Nat → List Char → Option (Nat × List Char)
  | 0, acc, s => some (acc, s)
  | _ + 1, _, [] => none
  | n + 1, acc, c :: t =>
    if c.isDigit then takeDigits n (acc * 10 + (c.toNat - 48)) t else none

/-- Greedy candidates for `\d{1,2}`: two digits first, then one. -/
def cand12 (s : List Char) : List (Nat × List Char) :=
  (takeDigits 2 0 s).toList ++ (takeDigits 1 0 s).toList

/-- Greedy candidates for `\d{2,4}`: four digits, then three, then two. -/
def candYear (s : List Char) : List (Nat × List Char) :=
  (takeDigits 4 0 s).toList ++ (takeDigits 3 0 s).toList ++ (takeDigits 2 0 s).toList

/-- First success of `f` over a candidate list (regex backtracking order). -/
def firstSome : List α → (α → Option β) → Option β
  | [], _ => none
  | a :: t, f => (f a).orElse fun _ => firstSome t f

/-- Try to match `\b(\d{1,2})SEP(\d{1,2})(?:SEP(\d{2,4}))?\b` at the current
position (`prev` is the preceding char), with the greedy
backtracking of the engine. Returns (group1, group2, optional group3). -/
def tryDateAt (sep : Char) (prev : Option Char) (s : List Char) :
    Option (Nat × Nat × Option Nat) :=
  if boundB prev then
    firstSome (cand12 s) fun d1r =>
      match d1r.2 with
      | [] => none
      | c :: r2 =>
        if c = sep then
          firstSome (cand12 r2) fun d2r =>
            (match d2r.2 with
             | c2 :: r4 =>
               if c2 = sep then
                 firstSome (candYear r4) fun yr =>
                   if boundB yr.2.head? then some (d1r.1, d2r.1, some yr.1) else none
               else none
             | [] => none).orElse fun _ =>
              if boundB d2r.2.head? then some (d1r.1, d2r.1, none) else none
        else none
  else none

/-- Scan as `re.search` does over the whole text: leftmost position wins. -/
def findDateTok (sep : Char) (prev : Option Char) : List Char → Option (Nat × Nat × Option Nat)
  | [] => none
  | c :: t => (tryDateAt sep prev (c :: t)).orElse fun _ => findDateTok sep (some c) t

def isLeapYear (y : Nat) : Bool :=
  (y % 4 == 0 && y % 100 != 0) || y % 400 == 0

def daysInMonth (y m : Nat) : Nat :=
  if m = 2 then (if isLeapYear y then 29 else 28)
  else if m = 4 ∨ m = 6 ∨ m = 9 ∨ m = 11 then 30
  else 31

/-- Constructor check of `datetime(year, month, day)`: `some` date if valid, `none` on the
`ValueError` the source catches. -/
def mkValidDate (y m d : Nat) : Option PyDate :=
  if 1 ≤ y ∧ y ≤ 9999 ∧ 1 ≤ m ∧ m ≤ 12 ∧ 1 ≤ d ∧ d ≤ daysInMonth y m then
    some ⟨y, m, d⟩
  else none

/-- Year group handling of `_extract_first_date`: absent year defaults to the
current year; a value below 100 gets 2000 added. -/
def resolveYear (todayYear : Nat) : Option Nat → Nat
  | none => todayYear
  | some y => if y < 100 then y + 2000 else y

/-- One regex of `_extract_first_date`: leftmost match, then conversion with
`datetime(...)`; invalid dates (`ValueError`) give `none`. -/
def tryDateSep (todayYear : Nat) (sep : Char) (s : List Char) : Option PyDate :=
  (findDateTok sep none s).bind fun dmy =>
    mkValidDate (resolveYear todayYear dmy.2.2) dmy.2.1 dmy.1

/-- Embedding of `_extract_first_date(text)` from summarizer.py: the three separator
regexes (`/`, `-`, `.`) are tried in order; a match that is not a valid date
moves on to the next regex (`continue` in the source). -/
def extractFirstDate (todayYear : Nat) (s : List Char) : Option PyDate :=
  (tryDateSep todayYear '/' s).orElse fun _ =>
    (tryDateSep todayYear '-' s).orElse fun _ =>
      tryDateSep todayYear '.' s

/-- Days since the civil epoch 1970-01-01 (proleptic Gregorian), the standard
"days from civil" computation; used to embed Python date subtraction. -/
def rataDie (dt : PyDate) : Int :=
  let y : Int := if dt.month ≤ 2 then (dt.year : Int) - 1 else (dt.year : Int)
  let era : Int := (if 0 ≤ y then y else y - 399) / 400
  let yoe : Int := y - era * 400
  let mp : Int := ((dt.month : Int) + 9) % 12
  let doy : Int := (153 * mp + 2) / 5 + (dt.day : Int) - 1
  let doe : Int := yoe * 365 + yoe / 4 - yoe / 100 + doy
  era * 146097 + doe - 719468

/-- Embedding of `_days_until(dt)` from summarizer.py: `(dt.date() - today).days`, with
"today" passed explicitly. -/
def daysUntil (today dt : PyDate) : Int := rataDie dt - rataDie today

/-! Classifier configuration (summarizer.py pattern and keyword lists).
Each `IGNORE_SUBJECT_PATTERNS` / `LOW_PRIORITY_PATTERNS` entry in the source
is a regex of the shape `\bLITERAL\b`; we store the literals. -/

def IGNORE_SUBJECT_PATTERNS : List String :=
  ["Render", "Railway", "Deployment crashed", "Server failure", "incident",
   "alert", "status", "monitor", "unhealthy", "down", "crash", "error",
   "failure", "SEV", "PagerDuty", "Datadog", "Sentry", "Uptime", "New Relic",
   "AWS", "GCP", "Azure"]

def LOW_PRIORITY_PATTERNS : List String :=
  ["newsletter", "promo", "desconto", "oferta", "marketing", "últimas horas",
   "final call", "TikTok", "Strava", "Vans", "Esporte"]

def HIGH_PRIORITY_KEYWORDS : List String :=
  ["banco", "itau", "itaú", "bradesco", "santander", "nubank", "caixa", "bb",
   "banco do brasil",
   "fatura", "cartão", "cartao", "boleto", "pix", "transferência",
   "transferencia", "pagamento",
   "cobrança", "cobranca", "inadimplência", "inadimplencia", "juros", "multa",
   "limite", "fraude", "suspeita", "compra não reconhecida",
   "compra nao reconhecida",
   "comprovante", "extrato", "débito", "debito", "crédito", "credito",
   "renegociação", "renegociacao",
   "vencimento", "vence", "a vencer", "atraso", "em atraso", "segunda via",
   "2ª via", "2a via",
   "corte", "suspensão", "suspensao", "negativação", "negativacao",
   "iptu", "ipva", "condomínio", "condominio", "aluguel", "energia", "luz",
   "água", "agua",
   "internet", "telefone", "plano de saúde", "plano de saude",
   "escola", "colégio", "colegio", "mensalidade", "rematrícula", "rematricula",
   "boletim", "prova", "reunião", "reuniao", "coordenação", "coordenacao",
   "matrícula", "matricula", "material escolar", "sala", "turma",
   "agenda", "aviso", "comunicado"]

def MEDIUM_PRIORITY_KEYWORDS : List String :=
  ["google alerts", "alerta do google", "jtekt", "notícia", "noticia",
   "confirmação", "confirmacao", "reserva", "viagem", "documento"]

def DUE_HINTS : List String :=
  ["venc", "vence", "a vencer", "vencimento", "prazo", "deadline",
   "último dia", "ultimo dia", "final", "hoje", "amanhã", "amanha"]

/-! Classification (`classify_email`, `_classify_with_llm`) -/

/-- An input record (`emails` dict from gmail_client.py); absent or
non-string fields are `none`.  The key `"from"` is `fromAddr` here. -/
structure EmailRec where
  subject : Option String := none
  fromAddr : Option String := none
  sender : Option String := none
  from_email : Option String := none
  snippet : Option String := none
  body : Option String := none
deriving DecidableEq

structure ClassifiedEmail where
  subject : String
  sender : String
  snippet : String
  priority : String
  score : Nat
  one_liner : String
  actions : List String
  due_date : Option PyDate := none
deriving DecidableEq

/-- Embedding of `_dedupe_keep_order` from summarizer.py. -/
def dedupeAux (seen : List String) : List String → List String
  | [] => []
  | x :: t => if seen.contains x then dedupeAux seen t else x :: dedupeAux (x :: seen) t

def dedupeKeepOrder (items : List String) : List String := dedupeAux [] items

/-- The successfully-parsed JSON object of the external reply
(`json.loads(raw)` with its fields already extracted: `str(...)` applied to
`priority`/`one_liner`, non-list `actions` collapsed to `[]`).  The network
call and JSON decoding are external; `none` stands for `_openai_chat`
returning nothing or `json.loads` failing. -/
structure LlmReply where
  priority : String := ""
  one_liner : String := ""
  actions : List String := []
deriving DecidableEq

def toUpperL (s : List Char) : List Char := s.map Char.toUpper

/-- The `score_map` of `_classify_with_llm`. -/
def scoreMap (pr : String) : Nat :=
  if pr = "IGNORAR" then 0
  else if pr = "BAIXA" then 25
  else if pr = "MEDIA" then 55
  else 85

/-- Embedding of `_classify_with_llm(subject, sender, snippet)` from summarizer.py, with
the external reply passed in.  Validates the label, maps it to a score with
`score_map`, cleans up the action list. -/
def classifyWithLlm (subject sender snippet : String) (llm : Option LlmReply) :
    Option ClassifiedEmail :=
  match llm with
  | none => none
  | some data =>
    let pr := String.mk (toUpperL (stripList data.priority.data))
    let one0 := stripS data.one_liner
    let one := if one0 = "" then "Classificado pelo modelo." else one0
    let acts0 := (data.actions.map stripS).filter fun a => a ≠ ""
    let acts := (dedupeKeepOrder acts0).take 4
    if pr = "ALTA" ∨ pr = "MEDIA" ∨ pr = "BAIXA" ∨ pr = "IGNORAR" then
      some ⟨subject, sender, snippet, pr, scoreMap pr, one,
            (if acts = [] then ["Ler e decidir ação."] else acts), none⟩
    else none

def fmt2 (n : Nat) : String := if n < 10 then "0" ++ toString n else toString n

def fmt4 (n : Nat) : String :=
  if n < 10 then "000" ++ toString n
  else if n < 100 then "00" ++ toString n
  else if n < 1000 then "0" ++ toString n
  else toString n

/-- Renders `due_date.strftime("%d/%m/%Y")`. -/
def fmtDate (dt : PyDate) : String :=
  fmt2 dt.day ++ "/" ++ fmt2 dt.month ++ "/" ++ fmt4 dt.year

/-- Step 3 of `classify_email` (the ALTA branch): the score and the
proximity action chosen from `_days_until(due_date)`. -/
def dueAdjust (today : PyDate) : Option PyDate → Nat × List String
  | none => (85, [])
  | some dt =>
    let d := daysUntil today dt
    if d ≤ 0 then (100, ["Verificar se está vencido hoje/atrasado e regularizar imediatamente."])
    else if d ≤ 2 then (95, ["Agendar pagamento/ação hoje para não perder o prazo."])
    else if d ≤ 7 then (90, ["Colocar lembrete e planejar pagamento/ação ainda nesta semana."])
    else (85, ["Registrar na sua lista de pendências com lembrete."])

def FATURA_ACTION_KEYS : List String :=
  ["fatura", "boleto", "vencimento", "a vencer", "segunda via", "2a via", "2ª via"]

def FRAUDE_ACTION_KEYS : List String :=
  ["fraude", "suspeita", "compra não reconhecida", "compra nao reconhecida"]

def ESCOLA_ACTION_KEYS : List String :=
  ["escola", "colégio", "colegio", "mensalidade", "rematrícula", "rematricula", "boletim"]

/-- Embedding of `classify_email(email)` from summarizer.py.  `today` stands for
the date of `datetime.now()` and `llm` for the parsed external reply
(`none` when `_openai_chat` yields nothing). -/
def classify_email (today : PyDate) (llm : Option LlmReply) (email : EmailRec) :
    ClassifiedEmail :=
  let subject := pyGet [email.subject] "(sem assunto)"
  let sender := pyGet [email.fromAddr, email.sender, email.from_email] "(remetente desconhecido)"
  let snippet := pyGet [email.snippet, email.body] ""
  let blob := (subject ++ "\n" ++ sender ++ "\n" ++ snippet).data
  if matchesAny IGNORE_SUBJECT_PATTERNS blob then
    ⟨subject, sender, snippet, "IGNORAR", 0,
     "Alerta/monitoramento de sistema (ignorado por regra).",
     ["Ignorar/arquivar (não é prioridade pessoal)."], none⟩
  else if matchesAny LOW_PRIORITY_PATTERNS blob then
    ⟨subject, sender, snippet, "BAIXA", 15,
     "Conteúdo promocional/newsletter/social.",
     ["Arquivar ou mover para pasta/label de promo/newsletter."], none⟩
  else
    let due_date := extractFirstDate today.year blob
    let has_due_hint := containsAny DUE_HINTS blob
    let has_high_kw := containsAny HIGH_PRIORITY_KEYWORDS blob
    if has_high_kw || (has_due_hint && due_date.isSome) then
      let sa := dueAdjust today due_date
      let t := normList blob
      let a1 :=
        if FATURA_ACTION_KEYS.any (fun k => hasSubAux k.data t) then
          "Abrir o email e verificar valor, vencimento e forma de pagamento." :: sa.2
            ++ ["Se possível, pagar via app/banco e arquivar o comprovante."]
        else sa.2
      let a2 :=
        if FRAUDE_ACTION_KEYS.any (fun k => hasSubAux k.data t) then
          "Abrir imediatamente: possível fraude. Bloquear/contestar no app do banco." :: a1
        else a1
      let a3 :=
        if ESCOLA_ACTION_KEYS.any (fun k => hasSubAux k.data t) then
          "Abrir e checar se há prazo/ação (mensalidade, rematrícula, comunicado)." :: a2
        else a2
      let one_liner :=
        match due_date with
        | none => "Banco/contas/escola/prazo: requer ação prática."
        | some dt => "Banco/contas/escola/prazo: requer ação prática." ++
            " Data detectada: " ++ fmtDate dt ++ "."
      let acts := (dedupeKeepOrder (a3.filter fun a => stripS a ≠ "")).take 5
      ⟨subject, sender, snippet, "ALTA", min 100 sa.1, one_liner, acts, due_date⟩
    else if containsAny MEDIUM_PRIORITY_KEYWORDS blob then
      ⟨subject, sender, snippet, "MEDIA", 55,
       "Possivelmente relevante, mas sem urgência clara.",
       ["Ler rapidamente e decidir se vira pendência/encaminhamento."], none⟩
    else
      match classifyWithLlm subject sender snippet llm with
      | some c => c
      | none =>
        ⟨subject, sender, snippet, "BAIXA", 25,
         "Sem sinais fortes de ser banco/conta/escola/prazo.",
         ["Arquivar ou revisar depois se tiver tempo."], none⟩

/-! Grouping (`group_by_subject`, the grouping stage of `build_summary`).
Python dicts preserve insertion order; we model them as association lists
with lookup/update on the first matching key. -/

def alookup {β : Type} : List (String × β) → String → Option β
  | [], _ => none
  | (k, v) :: t, key => if k = key then some v else alookup t key

/-- Replace the value at the first occurrence of `key` (no-op if absent). -/
def aupdate {β : Type} : List (String × β) → String → β → List (String × β)
  | [], _, _ => []
  | (k, v) :: t, key, nv => if k = key then (k, nv) :: t else (k, v) :: aupdate t key nv

/-- The grouping key of `group_by_subject`:
`re.sub(r"\s+", " ", _norm(e.subject))`. -/
def normKey (s : String) : String := String.mk (collapseWs (normList s.data))

abbrev Grouped := List (String × ClassifiedEmail × Nat)

/-- One iteration of the `group_by_subject` loop. -/
def groupStep (g : Grouped) (e : ClassifiedEmail) : Grouped :=
  let key := normKey e.subject
  match alookup g key with
  | some rn => aupdate g key (if rn.1.score < e.score then (e, rn.2 + 1) else (rn.1, rn.2 + 1))
  | none => g ++ [(key, e, 1)]

def groupGo (g : Grouped) : List ClassifiedEmail → Grouped
  | [] => g
  | e :: t => groupGo (groupStep g e) t

/-- Embedding of `group_by_subject(emails)` from summarizer.py. -/
def group_by_subject (emails : List ClassifiedEmail) : Grouped := groupGo [] emails

/-- The classification-and-grouping stage of `build_summary(emails)`:
classify every record, drop the `"IGNORAR"` ones, group by subject.  `llmF`
supplies the parsed external reply for each record. -/
def build_summary_groups (today : PyDate) (llmF : EmailRec → Option LlmReply)
    (emails : List EmailRec) : Grouped :=
  group_by_subject ((emails.map fun e => classify_email today (llmF e) e).filter
    fun c => c.priority != "IGNORAR")

/-! Scheduler (`main.py`: `_should_run_now`, `_mark_ran`, `main_loop`) -/

/-- A parsed schedule entry `(hh, mm, "HH:MM")` of `_parse_times`. -/
structure Slot where
  hh : Nat
  mm : Nat
  label : String
deriving DecidableEq

/-- The wall clock at a check: `_today_key(now)` and the minute of day.
`now >= now.replace(hour=hh, minute=mm, second=0, microsecond=0)` is exactly
`hh * 60 + mm ≤ minOfDay` for clocks on the same date. -/
structure Clock where
  dateKey : String
  minOfDay : Nat
deriving DecidableEq

/-- The `state["ran"]` ledger: date key to the list of slot labels ran. -/
abbrev RanState := List (String × List String)

def ranToday (st : RanState) (day : String) : List String := (alookup st day).getD []

/-- Embedding of `_mark_ran(now, slot, state)` from main.py: append `slot` to
the list for today if it is not there yet (creating the entry as needed). -/
def markRan (day slot : String) (st : RanState) : RanState :=
  match alookup st day with
  | some slots => if slots.contains slot then st else aupdate st day (slots ++ [slot])
  | none => st ++ [(day, [slot])]

def slotDue (now : Clock) (s : Slot) : Bool := s.hh * 60 + s.mm ≤ now.minOfDay

/-- Embedding of `_should_run_now(now, schedule, state)` from main.py: the first slot of
the (sorted) schedule that is already due today and not yet executed. -/
def shouldRunNow (now : Clock) (schedule : List Slot) (st : RanState) : Option String :=
  match schedule with
  | [] => none
  | s :: t =>
    if slotDue now s && !(ranToday st now.dateKey).contains s.label then some s.label
    else shouldRunNow now t st

/-- The state effect of one `main_loop` iteration with a due slot: `run_once`
is attempted, and the `finally` block calls `_mark_ran` whether `run_once`
succeeded or raised — the `outcome` argument is therefore unused. -/
def loopBody (now : Clock) (schedule : List Slot) (st : RanState)
    (outcome : Except String Unit) : RanState :=
  match shouldRunNow now schedule st with
  | some slot =>
    match outcome with
    | Except.ok _ => markRan now.dateKey slot st
    | Except.error _ => markRan now.dateKey slot st
  | none => st

/-! State store (`state_store.py`: `load_state`, `prune_old`) -/

/-- An `items` entry of the persisted state; `last_seen` is absent or an
integer (`int(v.get("last_seen", 0) or 0)` in the source defaults to 0). -/
structure AlertRec where
  last_seen : Option Int := none
deriving DecidableEq

/-- Embedding of `prune_old(state, ttl_seconds)` from state_store.py restricted to the
`items` map it rewrites: keep exactly the entries with
`ts - last_seen <= ttl_seconds`. -/
def prune_old (now ttl : Int) (items : List (String × AlertRec)) :
    List (String × AlertRec) :=
  items.filter fun kv => now - (kv.2.last_seen.getD 0) ≤ ttl

/-- What the filesystem offers when `load_state` opens the path: no file
(`FileNotFoundError`), some other I/O failure, or the file content. -/
inductive FileRead where
  | missing
  | ioFail
  | content (s : String)
deriving DecidableEq

/-- The raising behaviour of `open(...).read()` inside `load_state`. -/
def readFile : FileRead → Except String String
  | FileRead.missing => Except.error "FileNotFoundError"
  | FileRead.ioFail => Except.error "OSError"
  | FileRead.content s => Except.ok s

/-- Embedding of `load_state(path)` from state_store.py (and `_load_state` of main.py,
which has the same `except`-to-empty behaviour): any exception from opening
or from `json.load` (an arbitrary `parse` here) yields the empty state; a
successful parse is returned as is.  The result is an `Except` so that "the
function never raises" is the provable statement that it is always `ok`. -/
def load_state {α : Type} (emptyD : α) (parse : String → Except String α)
    (f : FileRead) : Except String α :=
  match readFile f with
  | Except.error _ => Except.ok emptyD
  | Except.ok s =>
    match parse s with
    | Except.ok v => Except.ok v
    | Except.error _ => Except.ok emptyD

/-! Alert state tracker (modelled from the spec).
`main.py` calls `build_items(...)` from the summarizer module, but no
definition of `build_items` or of the re-alert filtering exists under the
sources; only the `prune_old` side in state_store.py exists.  The per-item
notify decision is therefore modelled from the spec. -/

/-- An AlertRecord as the spec defines it (spec section 3). -/
structure TrackRec where
  last_seen : Int
  last_alerted : Option Int := none
deriving DecidableEq

/-- Modelled from the spec: the missing eligibility decision of the Alert
State Tracker (spec section 4.5, steps 2-3): skip when `bucket == IGNORE` or
`score < MIN_SCORE_TO_NOTIFY`; otherwise eligible iff no `last_alerted`
exists or `now - last_alerted >= RE_ALERT_INTERVAL`. -/
def trackEligible (now reAlert minScore : Int) (r0 : Option TrackRec)
    (score : Int) (bucket : String) : Bool :=
  bucket != "IGNORE" && minScore ≤ score &&
    (match r0 with
     | none => true
     | some r =>
       match r.last_alerted with
       | none => true
       | some la => reAlert ≤ now - la)

/-- Modelled from the spec: step 1 of the tracker contract — `last_seen` is
set to `now` unconditionally, `last_alerted` is preserved (it changes only
after a successful send). -/
def trackUpdateSeen (now : Int) : Option TrackRec → TrackRec
  | none => ⟨now, none⟩
  | some r => ⟨now, r.last_alerted⟩

/-- Insert or replace `key` in an association list. -/
def aupsert {β : Type} (st : List (String × β)) (key : String) (v : β) :
    List (String × β) :=
  match alookup st key with
  | some _ => aupdate st key v
  | none => st ++ [(key, v)]

/-- Modelled from the spec: the missing `build_items` cycle — walk the
classified items, update `last_seen` for every groupKey, and collect the
notify-set of eligible keys. -/
def buildNotifyGo (now reAlert minScore : Int) (st : List (String × TrackRec))
    (acc : List String) : List (String × Int × String) →
    List (String × TrackRec) × List String
  | [] => (st, acc)
  | (key, score, bucket) :: t =>
    let r0 := alookup st key
    let st' := aupsert st key (trackUpdateSeen now r0)
    let acc' := if trackEligible now reAlert minScore r0 score bucket then acc ++ [key] else acc
    buildNotifyGo now reAlert minScore st' acc' t

/-- Modelled from the spec: one tracker cycle over a batch of classified
items given as `(groupKey, score, bucket)` triples. -/
def buildNotify (now reAlert minScore : Int) (st : List (String × TrackRec))
    (items : List (String × Int × String)) :
    List (String × TrackRec) × List String :=
  buildNotifyGo now reAlert minScore st [] items

/-! Auxiliary definitions used by the statements -/

/-- The `blob` string `f"{subject}\n{sender}\n{snippet}"` that
`classify_email` matches against. -/
def emailBlob (email : EmailRec) : List Char :=
  (pyGet [email.subject] "(sem assunto)" ++ "\n" ++
    pyGet [email.fromAddr, email.sender, email.from_email] "(remetente desconhecido)" ++ "\n" ++
    pyGet [email.snippet, email.body] "").data

/-- Sum of the per-group `count` fields of a grouped result. -/
def sumCounts : Grouped → Nat
  | [] => 0
  | kv :: t => kv.2.2 + sumCounts t

/-- The score the ALTA branch derives from the days until the due date
(spec: same-day or overdue 100, up to 2 days 95, up to 7 days 90, else 85). -/
def dueScore (d : Int) : Nat :=
  if d ≤ 0 then 100 else if d ≤ 2 then 95 else if d ≤ 7 then 90 else 85

/-- Invariant carried through the `group_by_subject` loop: keys are distinct,
counts sum to the number of processed emails, and per key the dict holds a
maximal-score representative of the processed emails with that key. -/
def GroupInv (processed : List ClassifiedEmail) (g : Grouped) : Prop :=
  (g.map Prod.fst).Nodup ∧
  sumCounts g = processed.length ∧
  (∀ k, alookup g k = none → ∀ e ∈ processed, normKey e.subject ≠ k) ∧
  (∀ k rn, alookup g k = some rn → rn.1 ∈ processed ∧ normKey rn.1.subject = k ∧
    ∀ e ∈ processed, normKey e.subject = k → e.score ≤ rn.1.score)

/-! Concrete inputs for the witnesses and counterexamples. -/

def today0 : PyDate := ⟨2026, 10, 12⟩

/-- A gray-zone record: matches no ignore/low/high/medium pattern. -/
def grayEmail : EmailRec := { subject := some "ola", fromAddr := some "x@y.z" }

/-- An external-scorer reply labelling a gray-zone item `IGNORAR`. -/
def llmIgnore : LlmReply := ⟨"IGNORAR", "alerta de infra", []⟩

def faturaEmail : EmailRec :=
  { subject := some "Fatura vence em 2 dias", fromAddr := some "x@y.z" }

def faturaDateEmail : EmailRec :=
  { subject := some "Fatura vence dia 14/10", fromAddr := some "x@y.z" }

def recibo1 : EmailRec :=
  { subject := some "Recibo numero 111111", fromAddr := some "a@b.c" }

def recibo2 : EmailRec :=
  { subject := some "Recibo numero 222222", fromAddr := some "a@b.c" }

def cA : ClassifiedEmail :=
  ⟨"Conta Luz", "a@b.c", "", "MEDIA", 55, "x", [], none⟩

def cB : ClassifiedEmail :=
  ⟨"conta  luz", "a@b.c", "", "ALTA", 85, "y", [], none⟩

def cSched : List Slot := [⟨9, 0, "09:00"⟩, ⟨12, 0, "12:00"⟩, ⟨18, 0, "18:00"⟩]

def cNow : Clock := ⟨"2026-01-05", 600⟩

def cParseBad : String → Except String Nat := fun _ => Except.error "bad"

def cTrackSt : List (String × TrackRec) := [("boleto luz", ⟨900, some 800⟩)]

/-! Helper lemmas on the association-list dict model -/

theorem alookup_mem {β : Type} {st : List (String × β)} {k : String} {v : β}
    (h : alookup st k = some v) : (k, v) ∈ st := by
  induction st with
  | nil => simp [alookup] at h
  | cons p t ih =>
    obtain ⟨k0, v0⟩ := p
    by_cases hk : k0 = k
    · subst hk
      simp [alookup] at h
      simp [h]
    · simp [alookup, hk] at h
      exact List.mem_cons_of_mem _ (ih h)

theorem alookup_append_single {β : Type} (st : List (String × β)) (p : String × β)
    (k : String) :
    alookup (st ++ [p]) k =
      (match alookup st k with
       | some v => some v
       | none => if p.1 = k then some p.2 else none) := by
  induction st with
  | nil => simp [alookup]
  | cons q t ih =>
    obtain ⟨k0, v0⟩ := q
    by_cases hk : k0 = k
    · simp [alookup, hk]
    · simp [alookup, hk, ih]

theorem alookup_aupdate_self {β : Type} {st : List (String × β)} {k : String} {v0 : β}
    (h : alookup st k = some v0) (w : β) :
    alookup (aupdate st k w) k = some w := by
  induction st with
  | nil => simp [alookup] at h
  | cons p t ih =>
    obtain ⟨k0, u⟩ := p
    by_cases hk : k0 = k
    · simp [alookup, aupdate, hk]
    · simp [alookup, aupdate, hk] at h ⊢
      exact ih h

theorem alookup_aupdate_ne {β : Type} (st : List (String × β)) {k k' : String}
    (w : β) (h : k' ≠ k) :
    alookup (aupdate st k w) k' = alookup st k' := by
  induction st with
  | nil => simp [aupdate]
  | cons p t ih =>
    obtain ⟨k0, u⟩ := p
    by_cases hk : k0 = k
    · subst hk
      simp [aupdate, alookup, Ne.symm h]
    · simp [aupdate, alookup, hk, ih]

theorem alookup_none_iff {β : Type} (st : List (String × β)) (k : String) :
    alookup st k = none ↔ k ∉ st.map Prod.fst := by
  induction st with
  | nil => simp [alookup]
  | cons p t ih =>
    obtain ⟨k0, u⟩ := p
    by_cases hk : k0 = k
    · simp [alookup, hk]
    · simp only [alookup, if_neg hk, ih, List.map_cons, List.mem_cons]
      constructor
      · intro h
        rintro (h1 | h2)
        · exact hk h1.symm
        · exact h h2
      · intro h h2
        exact h (Or.inr h2)

theorem akeys_aupdate {β : Type} (st : List (String × β)) (k : String) (w : β) :
    (aupdate st k w).map Prod.fst = st.map Prod.fst := by
  induction st with
  | nil => simp [aupdate]
  | cons p t ih =>
    obtain ⟨k0, u⟩ := p
    by_cases hk : k0 = k
    · simp [aupdate, hk]
    · simp [aupdate, hk, ih]

theorem alookup_aupsert_self {β : Type} (st : List (String × β)) (k : String) (v : β) :
    alookup (aupsert st k v) k = some v := by
  unfold aupsert
  cases h : alookup st k with
  | none =>
    rw [alookup_append_single, h]
    simp
  | some w => exact alookup_aupdate_self h v

theorem sumCounts_append (g : Grouped) (kv : String × ClassifiedEmail × Nat) :
    sumCounts (g ++ [kv]) = sumCounts g + kv.2.2 := by
  induction g with
  | nil => simp [sumCounts]
  | cons p t ih => simp [sumCounts, ih]; omega

theorem sumCounts_aupdate {g : Grouped} {k : String} {rep : ClassifiedEmail} {n : Nat}
    (h : alookup g k = some (rep, n)) (e' : ClassifiedEmail) :
    sumCounts (aupdate g k (e', n + 1)) = sumCounts g + 1 := by
  induction g with
  | nil => simp [alookup] at h
  | cons p t ih =>
    obtain ⟨k0, u⟩ := p
    by_cases hk : k0 = k
    · subst hk
      simp [alookup] at h
      simp [aupdate, sumCounts, h]
      omega
    · simp [alookup, hk] at h
      simp [aupdate, hk, sumCounts, ih h]
      omega

theorem contains_true_iff (l : List String) (a : String) :
    l.contains a = true ↔ a ∈ l := by
  induction l with
  | nil => simp
  | cons x t ih => simp

theorem mem_markRan (day slot : String) (st : RanState) :
    slot ∈ ranToday (markRan day slot st) day := by
  unfold markRan
  cases h : alookup st day with
  | none =>
    unfold ranToday
    rw [alookup_append_single, h]
    simp
  | some slots =>
    dsimp only
    by_cases hc : slots.contains slot
    · rw [if_pos hc]
      unfold ranToday
      rw [h]
      exact (contains_true_iff slots slot).mp hc
    · rw [if_neg hc]
      unfold ranToday
      rw [alookup_aupdate_self h]
      simp

/-! Claim theorems -/

/-- Claim C9: the prune pass removes exactly the AlertRecords whose
`last_seen` is older than the TTL — an entry is in `prune_old now ttl items`
iff it is in `items` and `now - last_seen ≤ ttl`; retained entries are the
original records, unchanged. -/
theorem prune_old_exact (now ttl : Int) (items : List (String × AlertRec))
    (k : String) (r : AlertRec) :
    (k, r) ∈ prune_old now ttl items ↔
      ((k, r) ∈ items ∧ now - r.last_seen.getD 0 ≤ ttl) := by
  simp [prune_old, List.mem_filter]

/-- Claim C7: loading persisted state never raises — for every filesystem
outcome and every parser, `load_state` returns `ok`, and a missing file, an
I/O failure, or unparsable content yields the empty state. -/
theorem load_state_never_raises {α : Type} (emptyD : α)
    (parse : String → Except String α) (f : FileRead) :
    ∃ v, load_state emptyD parse f = Except.ok v ∧
      (∀ e, readFile f = Except.error e → v = emptyD) ∧
      (∀ s e, f = FileRead.content s → parse s = Except.error e → v = emptyD) := by
  cases f with
  | missing => exact ⟨emptyD, rfl, fun _ _ => rfl, fun s e h => by simp at h⟩
  | ioFail => exact ⟨emptyD, rfl, fun _ _ => rfl, fun s e h => by simp at h⟩
  | content s =>
    cases hp : parse s with
    | ok v =>
      refine ⟨v, ?_, ?_, ?_⟩
      · simp [load_state, readFile, hp]
      · intro e h
        simp [readFile] at h
      · intro s' e h h'
        injection h with h
        subst h
        rw [hp] at h'
        exact absurd h' (by simp)
    | error e =>
      refine ⟨emptyD, ?_, ?_, ?_⟩
      · simp [load_state, readFile, hp]
      · intro e' h
        simp [readFile] at h
      · intro _ _ _ _
        rfl

/-- Witness for C7 at a concrete input: a missing state file loads as the
empty state without raising. -/
theorem load_state_never_raises_witness :
    load_state 0 cParseBad FileRead.missing = Except.ok 0 := by
  obtain ⟨v, h1, h2, _⟩ := load_state_never_raises 0 cParseBad FileRead.missing
  rw [h2 "FileNotFoundError" rfl] at h1
  exact h1

/-- Claim C5 counterexample: in `main_loop`, `_mark_ran` runs in the
`finally` block, so a slot is recorded in the ran-ledger even when
`run_once` raised — delivery failure does not keep the slot unrecorded. -/
theorem main_loop_marks_failed_slot :
    loopBody cNow cSched [] (Except.error "send failed") =
      [("2026-01-05", ["09:00"])] ∧
    "09:00" ∈ ranToday (loopBody cNow cSched [] (Except.error "send failed"))
      "2026-01-05" := by
  constructor
  · rfl
  · decide

/-- Claim C5 amended: the slot-ledger entry is written whether or not the
notify pipeline succeeded — the resulting state does not depend on the
`run_once` outcome, and the due slot is always recorded. -/
theorem loopBody_marks_regardless (now : Clock) (schedule : List Slot)
    (st : RanState) (o o' : Except String Unit) :
    loopBody now schedule st o = loopBody now schedule st o' ∧
    ∀ slot, shouldRunNow now schedule st = some slot →
      slot ∈ ranToday (loopBody now schedule st o) now.dateKey := by
  constructor
  · unfold loopBody
    cases shouldRunNow now schedule st with
    | none => rfl
    | some slot => cases o <;> cases o' <;> rfl
  · intro slot h
    unfold loopBody
    rw [h]
    cases o <;> exact mem_markRan now.dateKey slot st

/-- Witness for C5 (amended): the concrete due slot is recorded under both a
failing and a succeeding pipeline outcome, and the states agree. -/
theorem loopBody_marks_regardless_witness :
    loopBody cNow cSched [] (Except.error "boom") =
      loopBody cNow cSched [] (Except.ok ()) ∧
    "09:00" ∈ ranToday (loopBody cNow cSched [] (Except.error "boom")) cNow.dateKey :=
  have h := loopBody_marks_regardless cNow cSched [] (Except.error "boom") (Except.ok ())
  ⟨h.1, h.2 "09:00" (by decide)⟩

/-- Claim C4: at most one run per slot per date — once a slot is recorded in
the ran-ledger for today, a second due-check on the same date never returns
that slot again. -/
theorem shouldRunNow_after_mark (now now' : Clock) (schedule : List Slot)
    (st : RanState) (slot : String) (hday : now.dateKey = now'.dateKey) :
    shouldRunNow now' schedule (markRan now.dateKey slot st) ≠ some slot := by
  obtain ⟨dk, m⟩ := now
  obtain ⟨dk', m'⟩ := now'
  dsimp only at hday ⊢
  subst hday
  induction schedule with
  | nil => simp [shouldRunNow]
  | cons s t ih =>
    unfold shouldRunNow
    by_cases hcond :
        (slotDue ⟨dk, m'⟩ s &&
          !(ranToday (markRan dk slot st) dk).contains s.label) = true
    · rw [if_pos hcond]
      intro heq
      injection heq with heq
      have hmem := mem_markRan dk slot st
      rw [heq] at hcond
      simp at hcond
      exact hcond.2 hmem
    · rw [if_neg hcond]
      exact ih

/-- Witness for C4: after the 09:00 slot is marked ran for 2026-01-05, a
second due-check one minute later on the same date does not return it. -/
theorem shouldRunNow_after_mark_witness :
    shouldRunNow ⟨"2026-01-05", 601⟩ cSched (markRan "2026-01-05" "09:00" []) ≠
      some "09:00" :=
  shouldRunNow_after_mark ⟨"2026-01-05", 600⟩ ⟨"2026-01-05", 601⟩ cSched [] "09:00" rfl

/-- Claim C6: catch-up policy — whenever some slot of the (time-sorted)
schedule is already due today and not recorded as sent, the due-check returns
a due, unrecorded slot that is earliest among them. -/
theorem shouldRunNow_catch_up (now : Clock) (schedule : List Slot) (st : RanState)
    (hsorted : schedule.Pairwise fun a b => a.hh * 60 + a.mm ≤ b.hh * 60 + b.mm)
    (hex : ∃ s ∈ schedule, slotDue now s = true ∧ s.label ∉ ranToday st now.dateKey) :
    ∃ s ∈ schedule, shouldRunNow now schedule st = some s.label ∧
      slotDue now s = true ∧ s.label ∉ ranToday st now.dateKey ∧
      ∀ s' ∈ schedule, slotDue now s' = true → s'.label ∉ ranToday st now.dateKey →
        s.hh * 60 + s.mm ≤ s'.hh * 60 + s'.mm := by
  induction schedule with
  | nil =>
    obtain ⟨s, hs, _⟩ := hex
    simp at hs
  | cons s0 t ih =>
    by_cases hcond :
        (slotDue now s0 && !(ranToday st now.dateKey).contains s0.label) = true
    · rw [Bool.and_eq_true, Bool.not_eq_true'] at hcond
      obtain ⟨hdue0, hnc0⟩ := hcond
      refine ⟨s0, List.mem_cons_self s0 t, ?_, hdue0, ?_, ?_⟩
      · unfold shouldRunNow
        rw [if_pos (by rw [Bool.and_eq_true, Bool.not_eq_true']; exact ⟨hdue0, hnc0⟩)]
      · intro hmem
        rw [(contains_true_iff _ s0.label).mpr hmem] at hnc0
        exact absurd hnc0 (by simp)
      · intro s' hs' _ _
        rcases List.mem_cons.mp hs' with h | h
        · rw [h]
        · exact (List.pairwise_cons.mp hsorted).1 s' h
    · have hnot : ¬(slotDue now s0 = true ∧ s0.label ∉ ranToday st now.dateKey) := by
        intro ⟨h1, h2⟩
        apply hcond
        rw [Bool.and_eq_true, Bool.not_eq_true']
        refine ⟨h1, ?_⟩
        cases hc : (ranToday st now.dateKey).contains s0.label with
        | false => rfl
        | true => exact absurd ((contains_true_iff _ _).mp hc) h2
      obtain ⟨s, hs, hdue, hnr⟩ := hex
      have hst : s ∈ t := by
        rcases List.mem_cons.mp hs with h | h
        · rw [h] at hdue hnr
          exact absurd ⟨hdue, hnr⟩ hnot
        · exact h
      obtain ⟨sr, hsr, heq, hdr, hnr2, hmin⟩ :=
        ih (List.pairwise_cons.mp hsorted).2 ⟨s, hst, hdue, hnr⟩
      refine ⟨sr, List.mem_cons_of_mem s0 hsr, ?_, hdr, hnr2, ?_⟩
      · unfold shouldRunNow
        rw [if_neg hcond]
        exact heq
      · intro s' hs' hdue' hnr'
        rcases List.mem_cons.mp hs' with h | h
        · rw [h] at hdue' hnr'
          exact absurd ⟨hdue', hnr'⟩ hnot
        · exact hmin s' h hdue' hnr'

/-- Witness for C6: with the default schedule, at 13:40 with only 09:00 in
the ledger, the due-check fires the missed 12:00 slot. -/
theorem shouldRunNow_catch_up_witness :
    ∃ s ∈ cSched,
      shouldRunNow ⟨"2026-01-05", 820⟩ cSched [("2026-01-05", ["09:00"])] = some s.label ∧
      slotDue ⟨"2026-01-05", 820⟩ s = true ∧
      s.label ∉ ranToday [("2026-01-05", ["09:00"])] "2026-01-05" ∧
      ∀ s' ∈ cSched, slotDue ⟨"2026-01-05", 820⟩ s' = true →
        s'.label ∉ ranToday [("2026-01-05", ["09:00"])] "2026-01-05" →
        s.hh * 60 + s.mm ≤ s'.hh * 60 + s'.mm :=
  shouldRunNow_catch_up ⟨"2026-01-05", 820⟩ cSched [("2026-01-05", ["09:00"])]
    (by decide) ⟨⟨12, 0, "12:00"⟩, by decide, by decide, by decide⟩

theorem dueAdjust_bounds (today : PyDate) (d : Option PyDate) :
    85 ≤ (dueAdjust today d).1 ∧ (dueAdjust today d).1 ≤ 100 := by
  cases d with
  | none => simp [dueAdjust]
  | some dt =>
    simp only [dueAdjust]
    split_ifs <;> simp

theorem classifyWithLlm_pairs {s se sn : String} {llm : Option LlmReply}
    {c : ClassifiedEmail} (h : classifyWithLlm s se sn llm = some c) :
    (c.priority = "ALTA" ∧ c.score = 85) ∨ (c.priority = "MEDIA" ∧ c.score = 55) ∨
    (c.priority = "BAIXA" ∧ c.score = 25) ∨ (c.priority = "IGNORAR" ∧ c.score = 0) := by
  cases llm with
  | none => simp [classifyWithLlm] at h
  | some data =>
    simp only [classifyWithLlm] at h
    set pr := String.mk (toUpperL (stripList data.priority.data)) with hpr
    by_cases hc : pr = "ALTA" ∨ pr = "MEDIA" ∨ pr = "BAIXA" ∨ pr = "IGNORAR"
    · rw [if_pos hc] at h
      injection h with h
      subst h
      rcases hc with hp | hp | hp | hp <;> rw [hp] <;> simp [scoreMap]
    · rw [if_neg hc] at h
      exact absurd h (by simp)

/-- Every return path of `classify_email` yields one of the five
priority-score shapes of the source. -/
theorem classify_pairs (today : PyDate) (llm : Option LlmReply) (email : EmailRec) :
    ((classify_email today llm email).priority = "IGNORAR" ∧
      (classify_email today llm email).score = 0) ∨
    ((classify_email today llm email).priority = "BAIXA" ∧
      (classify_email today llm email).score = 15) ∨
    ((classify_email today llm email).priority = "ALTA" ∧
      85 ≤ (classify_email today llm email).score ∧
      (classify_email today llm email).score ≤ 100) ∨
    ((classify_email today llm email).priority = "MEDIA" ∧
      (classify_email today llm email).score = 55) ∨
    ((classify_email today llm email).priority = "BAIXA" ∧
      (classify_email today llm email).score = 25) := by
  simp only [classify_email]
  split
  · simp
  · split
    · simp
    · split
      · refine Or.inr (Or.inr (Or.inl ⟨by simp, ?_, ?_⟩))
        · dsimp only
          exact le_min (by norm_num) (dueAdjust_bounds _ _).1
        · dsimp only
          exact min_le_left _ _
      · split
        · simp
        · split
          · rename_i c heq
            rcases classifyWithLlm_pairs heq with ⟨h1, h2⟩ | ⟨h1, h2⟩ | ⟨h1, h2⟩ | ⟨h1, h2⟩
            · exact Or.inr (Or.inr (Or.inl ⟨h1, by omega, by omega⟩))
            · exact Or.inr (Or.inr (Or.inr (Or.inl ⟨h1, h2⟩)))
            · exact Or.inr (Or.inr (Or.inr (Or.inr ⟨h1, h2⟩)))
            · exact Or.inl ⟨h1, h2⟩
          · simp

/-- Claim C3: re-alert suppression — a groupKey whose record has
`now - last_alerted < RE_ALERT_INTERVAL` is excluded from the notify-set
while its `last_seen` is still set to `now`; with no `last_alerted`, or
`now - last_alerted ≥ RE_ALERT_INTERVAL`, a non-ignored item scoring at or
above the notify threshold is included. -/
theorem buildNotify_realert (now reAlert minScore : Int)
    (st : List (String × TrackRec)) (key : String) (score : Int) (bucket : String) :
    alookup (buildNotify now reAlert minScore st [(key, score, bucket)]).1 key =
      some (trackUpdateSeen now (alookup st key)) ∧
    (∀ la, (alookup st key).bind TrackRec.last_alerted = some la →
      now - la < reAlert →
      (buildNotify now reAlert minScore st [(key, score, bucket)]).2 = []) ∧
    (bucket ≠ "IGNORE" → minScore ≤ score →
      ((alookup st key).bind TrackRec.last_alerted = none ∨
        ∃ la, (alookup st key).bind TrackRec.last_alerted = some la ∧
          reAlert ≤ now - la) →
      (buildNotify now reAlert minScore st [(key, score, bucket)]).2 = [key]) := by
  simp only [buildNotify, buildNotifyGo]
  refine ⟨alookup_aupsert_self _ _ _, ?_, ?_⟩
  · intro la hla hlt
    have hel : trackEligible now reAlert minScore (alookup st key) score bucket = false := by
      unfold trackEligible
      cases hr : alookup st key with
      | none => rw [hr] at hla; simp at hla
      | some r =>
        rw [hr] at hla
        simp only [Option.some_bind] at hla
        cases hla' : r.last_alerted with
        | none => rw [hla'] at hla; simp at hla
        | some la2 =>
          rw [hla'] at hla
          simp at hla
          subst hla
          simp [hla']
          omega
    rw [hel]
    simp
  · intro hb hsc hla
    have hel : trackEligible now reAlert minScore (alookup st key) score bucket = true := by
      unfold trackEligible
      have hb' : (bucket != "IGNORE") = true := by
        simp [bne_iff_ne]
        exact hb
      rcases hla with hnone | ⟨la, hsome, hge⟩
      · cases hr : alookup st key with
        | none => simp [hb', hsc]
        | some r =>
          rw [hr] at hnone
          simp at hnone
          simp [hb', hsc, hnone]
      · cases hr : alookup st key with
        | none => simp [hb', hsc]
        | some r =>
          rw [hr] at hsome
          simp at hsome
          simp [hb', hsc, hsome]
          omega
    rw [hel]
    simp

/-- Witness for C3: a key last alerted 100 seconds ago with a 720-second
re-alert interval is suppressed even at score 85. -/
theorem buildNotify_realert_witness :
    (buildNotify 900 720 75 cTrackSt [("boleto luz", 85, "HIGH")]).2 = [] :=
  (buildNotify_realert 900 720 75 cTrackSt "boleto luz" 85 "HIGH").2.1 800
    (by decide) (by decide)

/-- Claim C1 counterexample: on the path where the external scorer supplies
the label, an item that matched no ignore pattern can come back as bucket
`IGNORAR` with score 0 — so `score < 45` does not imply bucket `BAIXA` on
that path. -/
theorem classify_llm_ignore_uncorrelated :
    (classify_email today0 (some llmIgnore) grayEmail).score = 0 ∧
    (classify_email today0 (some llmIgnore) grayEmail).score < 45 ∧
    (classify_email today0 (some llmIgnore) grayEmail).priority = "IGNORAR" ∧
    (classify_email today0 (some llmIgnore) grayEmail).priority ≠ "BAIXA" ∧
    matchesAny IGNORE_SUBJECT_PATTERNS (emailBlob grayEmail) = false := by
  refine ⟨rfl, by decide, rfl, by decide, rfl⟩

/-- Claim C1 amended: on every return path of `classify_email` the bucket is
determined by the score via the fixed thresholds — `score ≥ 75 → ALTA`,
`45 ≤ score < 75 → MEDIA`, `score < 45 → BAIXA` — except that the bucket can
be `IGNORAR` (always with score 0) when the item matched an ignore pattern
or when the delegated external scorer returned the `IGNORAR` label. -/
theorem classify_bucket_from_score (today : PyDate) (llm : Option LlmReply)
    (email : EmailRec) :
    (75 ≤ (classify_email today llm email).score →
      (classify_email today llm email).priority = "ALTA") ∧
    (45 ≤ (classify_email today llm email).score →
      (classify_email today llm email).score < 75 →
      (classify_email today llm email).priority = "MEDIA") ∧
    ((classify_email today llm email).score < 45 →
      (classify_email today llm email).priority = "BAIXA" ∨
      ((classify_email today llm email).priority = "IGNORAR" ∧
        (classify_email today llm email).score = 0)) := by
  rcases classify_pairs today llm email with
    ⟨h1, h2⟩ | ⟨h1, h2⟩ | ⟨h1, h2, h3⟩ | ⟨h1, h2⟩ | ⟨h1, h2⟩
  · exact ⟨fun h => absurd h (by omega), fun h _ => absurd h (by omega),
      fun _ => Or.inr ⟨h1, h2⟩⟩
  · exact ⟨fun h => absurd h (by omega), fun h _ => absurd h (by omega),
      fun _ => Or.inl h1⟩
  · exact ⟨fun _ => h1, fun _ h => absurd h (by omega),
      fun h => absurd h (by omega)⟩
  · exact ⟨fun h => absurd h (by omega), fun _ _ => h1,
      fun h => absurd h (by omega)⟩
  · exact ⟨fun h => absurd h (by omega), fun h _ => absurd h (by omega),
      fun _ => Or.inl h1⟩

/-- Witness for C1 (amended): the concrete high-scoring record is bucketed
`ALTA` per the thresholds. -/
theorem classify_bucket_from_score_witness :
    (classify_email today0 none faturaEmail).priority = "ALTA" :=
  (classify_bucket_from_score today0 none faturaEmail).1 (by decide)

/-- Claim C8 counterexample: the record with subject
"Fatura vence em 2 dias" scores 85, not a value in [90, 95] — the phrase
"em 2 dias" is not a date token of `DATE_REGEXES`, so the days-until-due
modulation never runs. -/
theorem fatura_2days_score_85 :
    (classify_email today0 none faturaEmail).score = 85 ∧
    ¬(90 ≤ (classify_email today0 none faturaEmail).score ∧
      (classify_email today0 none faturaEmail).score ≤ 95) := by
  exact ⟨rfl, by decide⟩

/-- Claim C8 amended: "Fatura vence em 2 dias" yields score 85 and bucket
ALTA (no `DD/MM`-style date token is parsed, so no modulation applies) and
is included in the notify-set on first sighting; in general, a high-intent
keyword match whose text does parse a date token scores 100 when same-day
or overdue, 95 up to 2 days ahead, 90 up to 7 days ahead, else 85. -/
theorem classify_fatura_and_due_modulation :
    ((classify_email today0 none faturaEmail).score = 85 ∧
     (classify_email today0 none faturaEmail).priority = "ALTA" ∧
     (buildNotify 1000 43200 75 [] [("fatura vence em 2 dias", 85, "HIGH")]).2 =
       ["fatura vence em 2 dias"]) ∧
    ∀ (today : PyDate) (llm : Option LlmReply) (email : EmailRec) (dt : PyDate),
      matchesAny IGNORE_SUBJECT_PATTERNS (emailBlob email) = false →
      matchesAny LOW_PRIORITY_PATTERNS (emailBlob email) = false →
      containsAny HIGH_PRIORITY_KEYWORDS (emailBlob email) = true →
      extractFirstDate today.year (emailBlob email) = some dt →
      (classify_email today llm email).priority = "ALTA" ∧
      (classify_email today llm email).score = dueScore (daysUntil today dt) := by
  refine ⟨⟨rfl, rfl, by decide⟩, ?_⟩
  intro today llm email dt h1 h2 h3 h4
  simp only [emailBlob] at h1 h2 h3 h4
  simp only [classify_email, h1, h2, h3, h4]
  simp only [Bool.false_eq_true, if_false, Bool.true_or, if_true]
  refine ⟨by simp, ?_⟩
  simp only [dueAdjust, dueScore]
  split_ifs <;> simp

/-- Witness for C8 (amended): "Fatura vence dia 14/10" read on 2026-10-12
parses the date 2026-10-14, two days ahead, and scores `dueScore 2 = 95`. -/
theorem classify_fatura_and_due_modulation_witness :
    (classify_email today0 none faturaDateEmail).priority = "ALTA" ∧
    (classify_email today0 none faturaDateEmail).score =
      dueScore (daysUntil today0 ⟨2026, 10, 14⟩) :=
  classify_fatura_and_due_modulation.2 today0 none faturaDateEmail
    ⟨2026, 10, 14⟩ (by decide) (by decide) (by decide) (by decide)

/-- Claim C2 counterexample: two records identical except for the embedded
numeric id in the subject get different groupKeys — `group_by_subject` only
lowercases and collapses whitespace, it strips no id or hash tokens — so the
batch keeps them as two items of count 1 instead of one of count 2. -/
theorem group_key_keeps_ids :
    normKey "Recibo numero 111111" ≠ normKey "Recibo numero 222222" ∧
    (build_summary_groups today0 (fun _ => none) [recibo1, recibo2]).length = 2 ∧
    ((build_summary_groups today0 (fun _ => none) [recibo1, recibo2]).map
      fun kv => kv.2.2) = [1, 1] := by
  exact ⟨by decide, rfl, rfl⟩

/-- Claim C2 amended: `groupKey` is the whitespace-collapsed lowercased
subject, with no stripping of embedded ids or hashes; exactly the records
whose subjects agree up to case and whitespace merge — two such classified
records collapse into one group entry with count 2 under the maximal-score
representative. -/
theorem group_same_key_merges (c1 c2 : ClassifiedEmail)
    (h : normKey c1.subject = normKey c2.subject) :
    group_by_subject [c1, c2] =
      [(normKey c1.subject, if c1.score < c2.score then (c2, 2) else (c1, 2))] := by
  simp only [group_by_subject, groupGo, groupStep, alookup, ← h]
  simp [aupdate, alookup]

/-- Witness for C2 (amended): "Conta Luz" and "conta  luz" agree up to case
and whitespace and merge with count 2. -/
theorem group_same_key_merges_witness :
    group_by_subject [cA, cB] =
      [(normKey cA.subject, if cA.score < cB.score then (cB, 2) else (cA, 2))] :=
  group_same_key_merges cA cB (by decide)

theorem groupStep_inv {processed : List ClassifiedEmail} {g : Grouped}
    (h : GroupInv processed g) (e : ClassifiedEmail) :
    GroupInv (processed ++ [e]) (groupStep g e) := by
  obtain ⟨hnd, hsum, hnone, hsome⟩ := h
  simp only [groupStep]
  cases hl : alookup g (normKey e.subject) with
  | none =>
    dsimp only
    have hkout := (alookup_none_iff g (normKey e.subject)).mp hl
    refine ⟨?_, ?_, ?_, ?_⟩
    · rw [List.map_append]
      simp only [List.map_cons, List.map_nil]
      rw [List.nodup_append]
      exact ⟨hnd, List.nodup_singleton _, by simpa using fun hmem => hkout hmem⟩
    · rw [sumCounts_append]
      simp [hsum]
    · intro k hk x hx
      rw [alookup_append_single] at hk
      cases hgk : alookup g k with
      | some v =>
        rw [hgk] at hk
        exact absurd hk (by simp)
      | none =>
        rw [hgk] at hk
        dsimp only at hk
        by_cases hke : normKey e.subject = k
        · rw [if_pos hke] at hk
          exact absurd hk (by simp)
        · rcases List.mem_append.mp hx with hx | hx
          · exact hnone k hgk x hx
          · simp at hx
            subst hx
            exact hke
    · intro k rn hk
      rw [alookup_append_single] at hk
      cases hgk : alookup g k with
      | some v =>
        rw [hgk] at hk
        dsimp only at hk
        injection hk with hk
        subst hk
        obtain ⟨hin2, hkey2, hmax2⟩ := hsome k v hgk
        refine ⟨List.mem_append_left _ hin2, hkey2, ?_⟩
        intro x hx hkx
        rcases List.mem_append.mp hx with hx | hx
        · exact hmax2 x hx hkx
        · simp at hx
          subst hx
          rw [hkx] at hl
          rw [hl] at hgk
          exact absurd hgk (by simp)
      | none =>
        rw [hgk] at hk
        dsimp only at hk
        by_cases hke : normKey e.subject = k
        · rw [if_pos hke] at hk
          injection hk with hk
          subst hk
          refine ⟨List.mem_append_right _ (by simp), hke, ?_⟩
          intro x hx hkx
          rcases List.mem_append.mp hx with hx | hx
          · exact absurd hkx (hnone k hgk x hx)
          · simp at hx
            subst hx
            exact le_refl _
        · rw [if_neg hke] at hk
          exact absurd hk (by simp)
  | some rn0 =>
    obtain ⟨rep, n⟩ := rn0
    dsimp only
    obtain ⟨hin, hkey, hmax⟩ := hsome (normKey e.subject) (rep, n) hl
    refine ⟨?_, ?_, ?_, ?_⟩
    · rw [akeys_aupdate]
      exact hnd
    · by_cases hsc : rep.score < e.score
      · rw [if_pos hsc, sumCounts_aupdate hl]
        simp [hsum]
      · rw [if_neg hsc, sumCounts_aupdate hl]
        simp [hsum]
    · intro k hk x hx
      by_cases hke : normKey e.subject = k
      · subst hke
        rw [alookup_aupdate_self hl] at hk
        exact absurd hk (by simp)
      · rw [alookup_aupdate_ne _ _ (fun hh => hke hh.symm)] at hk
        rcases List.mem_append.mp hx with hx | hx
        · exact hnone k hk x hx
        · simp at hx
          subst hx
          exact hke
    · intro k rn hk
      by_cases hke : normKey e.subject = k
      · subst hke
        rw [alookup_aupdate_self hl] at hk
        injection hk with hk
        subst hk
        by_cases hsc : rep.score < e.score
        · rw [if_pos hsc]
          refine ⟨List.mem_append_right _ (by simp), rfl, ?_⟩
          intro x hx hkx
          rcases List.mem_append.mp hx with hx | hx
          · exact le_trans (hmax x hx hkx) (le_of_lt hsc)
          · simp at hx
            subst hx
            exact le_refl _
        · rw [if_neg hsc]
          refine ⟨List.mem_append_left _ hin, hkey, ?_⟩
          intro x hx hkx
          rcases List.mem_append.mp hx with hx | hx
          · exact hmax x hx hkx
          · simp at hx
            subst hx
            exact le_of_not_lt hsc
      · rw [alookup_aupdate_ne _ _ (fun hh => hke hh.symm)] at hk
        obtain ⟨hin2, hkey2, hmax2⟩ := hsome k rn hk
        refine ⟨List.mem_append_left _ hin2, hkey2, ?_⟩
        intro x hx hkx
        rcases List.mem_append.mp hx with hx | hx
        · exact hmax2 x hx hkx
        · simp at hx
          subst hx
          exact absurd hkx hke

theorem groupGo_inv : ∀ (rest processed : List ClassifiedEmail) (g : Grouped),
    GroupInv processed g → GroupInv (processed ++ rest) (groupGo g rest)
  | [], processed, g, h => by simpa using h
  | e :: t, processed, g, h => by
    have h2 := groupGo_inv t (processed ++ [e]) (groupStep g e) (groupStep_inv h e)
    rw [List.append_assoc] at h2
    simpa using h2

/-- Claim C10: `group_by_subject` preserves the batch — the per-group counts
sum to the input length, the group keys are pairwise distinct, and each
group's representative is an input email of that group whose score is
maximal among the inputs sharing its groupKey. -/
theorem group_by_subject_preserves_batch (emails : List ClassifiedEmail) :
    sumCounts (group_by_subject emails) = emails.length ∧
    ((group_by_subject emails).map Prod.fst).Nodup ∧
    ∀ k rep n, alookup (group_by_subject emails) k = some (rep, n) →
      rep ∈ emails ∧ normKey rep.subject = k ∧
      ∀ e ∈ emails, normKey e.subject = k → e.score ≤ rep.score := by
  have base : GroupInv [] [] :=
    ⟨by simp, by simp [sumCounts], fun k _ x hx => absurd hx (by simp),
     fun k rn hk => by simp [alookup] at hk⟩
  have hinv := groupGo_inv emails [] [] base
  rw [List.nil_append] at hinv
  obtain ⟨hnd, hsum, _, hsome⟩ := hinv
  refine ⟨hsum, hnd, ?_⟩
  intro k rep n hl
  exact hsome k (rep, n) hl

/-- Witness for C10: on a concrete two-email batch with a shared key, the
counts sum to 2 and the kept representative dominates the other's score. -/
theorem group_by_subject_preserves_batch_witness :
    sumCounts (group_by_subject [cA, cB]) = 2 ∧
    cB ∈ [cA, cB] ∧ normKey cB.subject = normKey cA.subject ∧
    cA.score ≤ cB.score := by
  have h := group_by_subject_preserves_batch [cA, cB]
  have h2 := h.2.2 (normKey cA.subject) cB 2 (by decide)
  exact ⟨h.1, h2.1, h2.2.1, h2.2.2 cA (by decide) (by decide)⟩

end EmailAgent
